import Mathlib

/-!
Verification of the download utility `auto_download.py`.

The script has two operations and an entry point:

* `download_file url dest_folder` — streams an HTTP GET into
  `dest_folder/basename`, skipping the transfer when the file already
  exists, printing a progress percentage when a Content-Length is known,
  and raising `requests.HTTPError` on a 4xx/5xx status.
* `download_videos video_urls dest_folder` — delegates to `yt_dlp` when it
  is importable, catching and logging every per-URL exception; when that
  module is missing it warns and returns.
* `main` — calls `download_videos` on a static URL list, then iterates a
  static dataset URL list calling `download_file`, catching only
  `requests.HTTPError` per iteration.

The embedding below models the filesystem as a record of directories and
files, the network as a function from URL to an HTTP outcome (a response,
or a connection-level failure such as `requests.ConnectionError`, which is
not a `requests.HTTPError`), and console output as a list of events.
Rational numbers stand in for the floating-point percentage; the values
involved in the claims are exact in both representations.
-/

namespace AutoDownload

/-- Characters permitted in a URL scheme after the first character,
following `urllib.parse` (letters, digits, `+`, `-`, `.`). -/
def isSchemeChar (c : Char) : Bool :=
  c.isAlphanum || c == '+' || c == '-' || c == '.'

/-- Model of the scheme-recognition step of `urllib.parse.urlsplit`: when
the string has the shape `scheme:rest` with a valid scheme (first
character a letter, remaining characters scheme characters), return the
lowercased scheme and `rest`; otherwise the empty scheme and the input
unchanged. -/
def splitScheme (cs : List Char) : List Char × List Char :=
  match cs.takeWhile (fun c => !(c == ':')), cs.dropWhile (fun c => !(c == ':')) with
  | c0 :: rest0, ':' :: rest =>
    if c0.isAlpha && rest0.all isSchemeChar then ((c0 :: rest0).map Char.toLower, rest)
    else ([], cs)
  | _, _ => ([], cs)

/-- Model of the netloc-stripping step of `urllib.parse.urlparse`: when the
string begins with `//`, drop the authority component, which extends to the
next `/`, `?` or `#`. -/
def dropNetloc (cs : List Char) : List Char :=
  match cs with
  | '/' :: '/' :: rest => rest.dropWhile (fun c => !(c == '/' || c == '?' || c == '#'))
  | _ => cs

/-- The schemes for which `urllib.parse.urlparse` splits a `;params`
suffix off the last path segment (`urllib.parse.uses_params`, which also
contains the empty scheme). -/
def USES_PARAMS : List String :=
  ["", "ftp", "hdl", "prospero", "http", "imap", "https", "shttp", "rtsp", "rtsps",
   "rtspu", "sip", "sips", "mms", "sftp", "tel"]

/-- Model of `urllib.parse._splitparams` restricted to its first result:
when the segment after the last `/` contains a `;`, the path is truncated
at the first `;` of that segment (at the first `;` anywhere when the path
has no `/`); otherwise the path is unchanged. `urlparse` applies this only
when the path contains a `;`, which the `contains` guards reproduce. -/
def stripParams (cs : List Char) : List Char :=
  if cs.contains '/' then
    if ((cs.reverse.takeWhile (fun c => !(c == '/'))).reverse).contains ';' then
      cs.take (cs.length - ((cs.reverse.takeWhile (fun c => !(c == '/'))).reverse).length) ++
        ((cs.reverse.takeWhile (fun c => !(c == '/'))).reverse).takeWhile
          (fun c => !(c == ';'))
    else cs
  else cs.takeWhile (fun c => !(c == ';'))

/-- Model of `urllib.parse.urlparse(url).path`: the fragment, the scheme
and the netloc are removed, the path is the part before any `?`, and for
a scheme in `uses_params` a `;params` suffix of the last segment is split
off. -/
def urlparsePath (url : String) : String :=
  if USES_PARAMS.contains
      (String.mk (splitScheme (url.data.takeWhile (fun c => !(c == '#')))).1) then
    String.mk (stripParams
      ((dropNetloc (splitScheme (url.data.takeWhile (fun c => !(c == '#')))).2).takeWhile
        (fun c => !(c == '?'))))
  else
    String.mk
      ((dropNetloc (splitScheme (url.data.takeWhile (fun c => !(c == '#')))).2).takeWhile
        (fun c => !(c == '?')))

/-- Model of `os.path.basename` on POSIX: the part of the string after the
last `/` (the whole string when no `/` occurs). -/
def basenameOf (s : String) : String :=
  String.mk ((s.data.reverse.takeWhile (fun c => !(c == '/'))).reverse)

/-- Value of a hexadecimal digit character, or `none`. -/
def hexDigit? (c : Char) : Option Nat :=
  if '0' ≤ c ∧ c ≤ '9' then some (c.toNat - '0'.toNat)
  else if 'a' ≤ c ∧ c ≤ 'f' then some (c.toNat - 'a'.toNat + 10)
  else if 'A' ≤ c ∧ c ≤ 'F' then some (c.toNat - 'A'.toNat + 10)
  else none

/-- Model of `urllib.parse.unquote_to_bytes` on an ASCII chunk: each `%XY`
with two hexadecimal digits becomes the byte `16*X+Y`; a `%` not followed
by two hexadecimal digits is kept as a literal byte, as is every other
character. -/
def unquoteToBytes : List Char → List Nat
  | [] => []
  | '%' :: a :: b :: rest2 =>
    match hexDigit? a, hexDigit? b with
    | some x, some y => (16 * x + y) :: unquoteToBytes rest2
    | _, _ => '%'.toNat :: unquoteToBytes (a :: b :: rest2)
  | c :: rest => c.toNat :: unquoteToBytes rest

/-- The Unicode replacement character U+FFFD. -/
def replacementChar : Char := Char.ofNat 0xFFFD

/-- A UTF-8 continuation byte. -/
def isCont (b : Nat) : Bool := 0x80 ≤ b && b ≤ 0xBF

/-- Fuel-indexed UTF-8 decoder with `errors='replace'` semantics as in
CPython: each maximal subpart of an ill-formed sequence (an invalid lead
byte, or a valid prefix that cannot be completed) becomes one U+FFFD and
decoding resumes at the offending byte. Lead-byte constraints follow the
UTF-8 definition: `C2-DF`, `E0` with second byte `A0-BF`, `ED` with second
byte `80-9F` (no surrogates), other `E1-EF` with `80-BF`, `F0` with
`90-BF`, `F1-F3` with `80-BF`, `F4` with `80-8F` (at most U+10FFFF). -/
def utf8DecodeAux : Nat → List Nat → List Char
  | _, [] => []
  | 0, _ :: _ => []
  | fuel + 1, b :: rest =>
    if b < 0x80 then Char.ofNat b :: utf8DecodeAux fuel rest
    else if 0xC2 ≤ b && b ≤ 0xDF then
      match rest with
      | [] => [replacementChar]
      | b1 :: rest1 =>
        if isCont b1 then
          Char.ofNat ((b - 0xC0) * 0x40 + (b1 - 0x80)) :: utf8DecodeAux fuel rest1
        else replacementChar :: utf8DecodeAux fuel (b1 :: rest1)
    else if 0xE0 ≤ b && b ≤ 0xEF then
      match rest with
      | [] => [replacementChar]
      | b1 :: rest1 =>
        if (b == 0xE0 && (0xA0 ≤ b1 && b1 ≤ 0xBF)) ||
            (b == 0xED && (0x80 ≤ b1 && b1 ≤ 0x9F)) ||
            (!(b == 0xE0) && !(b == 0xED) && isCont b1) then
          match rest1 with
          | [] => [replacementChar]
          | b2 :: rest2 =>
            if isCont b2 then
              Char.ofNat ((b - 0xE0) * 0x1000 + (b1 - 0x80) * 0x40 + (b2 - 0x80)) ::
                utf8DecodeAux fuel rest2
            else replacementChar :: utf8DecodeAux fuel (b2 :: rest2)
        else replacementChar :: utf8DecodeAux fuel (b1 :: rest1)
    else if 0xF0 ≤ b && b ≤ 0xF4 then
      match rest with
      | [] => [replacementChar]
      | b1 :: rest1 =>
        if (b == 0xF0 && (0x90 ≤ b1 && b1 ≤ 0xBF)) ||
            (b == 0xF4 && (0x80 ≤ b1 && b1 ≤ 0x8F)) ||
            (!(b == 0xF0) && !(b == 0xF4) && isCont b1) then
          match rest1 with
          | [] => [replacementChar]
          | b2 :: rest2 =>
            if isCont b2 then
              match rest2 with
              | [] => [replacementChar]
              | b3 :: rest3 =>
                if isCont b3 then
                  Char.ofNat ((b - 0xF0) * 0x40000 + (b1 - 0x80) * 0x1000 +
                      (b2 - 0x80) * 0x40 + (b3 - 0x80)) :: utf8DecodeAux fuel rest3
                else replacementChar :: utf8DecodeAux fuel (b3 :: rest3)
            else replacementChar :: utf8DecodeAux fuel (b2 :: rest2)
        else replacementChar :: utf8DecodeAux fuel (b1 :: rest1)
    else replacementChar :: utf8DecodeAux fuel rest

/-- UTF-8 decoding of a byte list with replacement, as `bytes.decode` with
`errors='replace'`. The fuel equals the length; every step consumes at
least one byte. -/
def utf8Decode (bs : List Nat) : List Char := utf8DecodeAux bs.length bs

/-- Fuel-indexed model of `urllib.parse.unquote`: the string is split into
maximal runs of ASCII characters (as by `_asciire`); each ASCII run is
converted to bytes with the escapes replaced (`unquote_to_bytes`) and the
bytes UTF-8-decoded with replacement; non-ASCII characters pass through
unchanged. -/
def unquoteAux : Nat → List Char → List Char
  | _, [] => []
  | 0, _ :: _ => []
  | fuel + 1, c :: rest =>
    if c.toNat ≤ 0x7F then
      utf8Decode (unquoteToBytes ((c :: rest).takeWhile (fun x => x.toNat ≤ 0x7F))) ++
        unquoteAux fuel ((c :: rest).dropWhile (fun x => x.toNat ≤ 0x7F))
    else c :: unquoteAux fuel rest

/-- Model of `urllib.parse.unquote` with its default UTF-8 decoding. -/
def unquoteChars (cs : List Char) : List Char := unquoteAux cs.length cs

/-- String wrapper around `unquoteChars`. -/
def unquoteStr (s : String) : String := String.mk (unquoteChars s.data)

/-- Model of `os.path.join` on POSIX for the cases the script exercises:
an absolute second component replaces the first, an empty first component
is dropped, and otherwise a single `/` separates the two. -/
def pathJoin (d f : String) : String :=
  if (match f.data with | '/' :: _ => true | _ => false) then f
  else if d = "" then f
  else if (match d.data.reverse with | '/' :: _ => true | _ => false) then d ++ f
  else d ++ "/" ++ f

/-- Local filename chosen by `download_file`:
`unquote(os.path.basename(urlparse(url).path)) or "downloaded_file"`. -/
def deriveFilename (url : String) : String :=
  if unquoteStr (basenameOf (urlparsePath url)) = "" then "downloaded_file"
  else unquoteStr (basenameOf (urlparsePath url))

/-- Modelled from the claim's words, for comparison with the code's
derivation: the percent-decoded last segment of the URL with only the
scheme, the authority, the fragment and the query string excluded — no
`;params` stripping — with the same empty-basename fallback. -/
def specLastSegmentFilename (url : String) : String :=
  if unquoteStr (basenameOf (String.mk
      ((dropNetloc (splitScheme (url.data.takeWhile (fun c => !(c == '#')))).2).takeWhile
        (fun c => !(c == '?'))))) = "" then "downloaded_file"
  else unquoteStr (basenameOf (String.mk
      ((dropNetloc (splitScheme (url.data.takeWhile (fun c => !(c == '#')))).2).takeWhile
        (fun c => !(c == '?')))))

/-- Filesystem model: a set of directories and a map from path to byte
content, both as lists. -/
structure FS where
  dirs : List String
  files : List (String × List Nat)
deriving DecidableEq

/-- The empty filesystem. -/
def FS.empty : FS := { dirs := [], files := [] }

/-- Model of `os.makedirs(d, exist_ok=True)`. -/
def FS.mkdirs (fs : FS) (d : String) : FS :=
  if fs.dirs.contains d then fs else { fs with dirs := d :: fs.dirs }

/-- Model of `os.path.exists`: true for a file path or a directory path. -/
def FS.pathExists (fs : FS) (p : String) : Bool :=
  fs.files.any (fun e => e.1 == p) || fs.dirs.contains p

/-- Content of the file at `p`, when present. -/
def FS.read? (fs : FS) (p : String) : Option (List Nat) :=
  (fs.files.find? (fun e => e.1 == p)).map (fun e => e.2)

/-- Model of opening `p` in mode `wb` and writing `c`: any previous
content at `p` is discarded. -/
def FS.write (fs : FS) (p : String) (c : List Nat) : FS :=
  { fs with files := (p, c) :: fs.files.filter (fun e => !(e.1 == p)) }

/-- An HTTP response as `requests` presents it after redirects: final
status code, parsed `Content-Length` header when present, and body bytes. -/
structure Response where
  status : Nat
  contentLength : Option Nat
  body : List Nat
deriving DecidableEq

/-- Outcome of `requests.get`: either a response, or a connection-level
failure (`requests.ConnectionError`, a timeout, a reset), which is a
`requests.RequestException` but not a `requests.HTTPError`. -/
inductive HttpResult where
  | success (resp : Response)
  | connectionFailure (msg : String)
deriving DecidableEq

/-- Exceptions the embedded code can raise: `requests.HTTPError` from
`raise_for_status`, or the connection-level failure propagating out of
`requests.get`. -/
inductive PyError where
  | httpError (status : Nat)
  | requestError (msg : String)
deriving DecidableEq

/-- Console output events: informational lines, the import warning, error
lines, per-chunk progress percentages, and the trailing newline written
after a sized download. -/
inductive OutEvent where
  | info (msg : String)
  | warning (msg : String)
  | errMsg (msg : String)
  | progress (filename : String) (percent : ℚ)
  | newline
deriving DecidableEq

/-- The fixed chunk size `8 * 1024` of `resp.iter_content`. -/
def CHUNK_SIZE : Nat := 8 * 1024

/-- Fuel-indexed splitting of a byte list into chunks of `CHUNK_SIZE`. -/
def chunkBytesAux : Nat → List Nat → List (List Nat)
  | _, [] => []
  | 0, _ :: _ => []
  | fuel + 1, b :: bs =>
    (b :: bs).take CHUNK_SIZE :: chunkBytesAux fuel ((b :: bs).drop CHUNK_SIZE)

/-- Model of `resp.iter_content(chunk_size=8 * 1024)`: the body split into
successive chunks of at most `CHUNK_SIZE` bytes. -/
def chunkBytes (bs : List Nat) : List (List Nat) := chunkBytesAux bs.length bs

/-- The download loop of `download_file`: for each chunk, empty chunks are
skipped (`if not chunk: continue`), the chunk is appended to the file, the
byte counter advances, and when `total_size` is nonzero a progress
percentage `downloaded * 100 / total_size` is printed. Returns the final
file content and the printed events. -/
def writeLoop (filename : String) (total : Nat) :
    List (List Nat) → Nat → List Nat → List Nat × List OutEvent
  | [], _, acc => (acc, [])
  | chunk :: rest, downloaded, acc =>
    if chunk.isEmpty then
      writeLoop filename total rest downloaded acc
    else
      (((writeLoop filename total rest (downloaded + chunk.length) (acc ++ chunk))).1,
        if total = 0 then
          (writeLoop filename total rest (downloaded + chunk.length) (acc ++ chunk)).2
        else
          OutEvent.progress filename
              (((downloaded + chunk.length : Nat) : ℚ) * 100 / (total : ℚ)) ::
            (writeLoop filename total rest (downloaded + chunk.length) (acc ++ chunk)).2)

/-- Result of one `download_file` call: the filesystem afterwards, the
console events of this call, the URLs requested over the network by this
call, and the returned path or the raised exception. -/
structure DLResult where
  fs : FS
  out : List OutEvent
  reqs : List String
  result : Except PyError String

/-- The skip branch of `download_file`: the destination path exists, so an
informational line is printed and the path is returned with no request. -/
def skipResult (url dest_folder : String) (fs : FS) : DLResult :=
  { fs := fs.mkdirs dest_folder,
    out := [OutEvent.info (deriveFilename url ++ " already exists - skipping.")],
    reqs := [],
    result := Except.ok (pathJoin dest_folder (deriveFilename url)) }

/-- The branch of `download_file` in which `requests.get` itself raises a
connection-level failure: the request was attempted, nothing was opened. -/
def connFailResult (url dest_folder : String) (fs : FS) (msg : String) : DLResult :=
  { fs := fs.mkdirs dest_folder,
    out := [OutEvent.info ("Downloading dataset archive from " ++ url)],
    reqs := [url],
    result := Except.error (PyError.requestError msg) }

/-- The branch of `download_file` in which `raise_for_status` raises: the
status is in `[400, 600)` and the destination file has not been opened. -/
def httpErrorResult (url dest_folder : String) (fs : FS) (status : Nat) : DLResult :=
  { fs := fs.mkdirs dest_folder,
    out := [OutEvent.info ("Downloading dataset archive from " ++ url)],
    reqs := [url],
    result := Except.error (PyError.httpError status) }

/-- The transfer branch of `download_file`: the destination file is opened
in mode `wb`, the chunk loop runs, and when `total_size` is nonzero a
final newline is written after the progress line. -/
def transferResult (url dest_folder : String) (fs : FS) (resp : Response) : DLResult :=
  { fs := (fs.mkdirs dest_folder).write (pathJoin dest_folder (deriveFilename url))
      (writeLoop (deriveFilename url) (resp.contentLength.getD 0)
        (chunkBytes resp.body) 0 []).1,
    out := OutEvent.info ("Downloading dataset archive from " ++ url) ::
      (writeLoop (deriveFilename url) (resp.contentLength.getD 0)
        (chunkBytes resp.body) 0 []).2 ++
      (if resp.contentLength.getD 0 = 0 then [] else [OutEvent.newline]) ++
      [OutEvent.info ("Finished downloading " ++ deriveFilename url)],
    reqs := [url],
    result := Except.ok (pathJoin dest_folder (deriveFilename url)) }

/-- Embedding of `download_file(url, dest_folder)` against a network model
`server`. Mirrors the source: `os.makedirs` first, filename derivation,
the `os.path.exists` skip, then `requests.get` with `raise_for_status`
(which raises exactly for statuses in `[400, 600)`), then the chunked
write loop and the trailing newline when a total size is known. -/
def download_file (server : String → HttpResult) (url : String) (dest_folder : String)
    (fs : FS) : DLResult :=
  if (fs.mkdirs dest_folder).pathExists (pathJoin dest_folder (deriveFilename url)) then
    skipResult url dest_folder fs
  else
    match server url with
    | HttpResult.connectionFailure msg => connFailResult url dest_folder fs msg
    | HttpResult.success resp =>
      if 400 ≤ resp.status ∧ resp.status < 600 then
        httpErrorResult url dest_folder fs resp.status
      else
        transferResult url dest_folder fs resp

/-- Environment for `download_videos`: whether `import yt_dlp` succeeds,
and the behaviour of `ydl.download([url])` for each URL — the files it
writes on success, or the message of the exception it raises. -/
structure VideoEnv where
  ytdlpAvailable : Bool
  download : String → Except String (List (String × List Nat))

/-- The per-URL loop of `download_videos`: prints the informational line,
runs `ydl.download([url])`, and on any exception logs an error line and
continues with the remaining URLs (`except Exception`). -/
def videoLoop (env : VideoEnv) (dest_folder : String) :
    List String → FS → FS × List OutEvent
  | [], fs => (fs, [])
  | url :: rest, fs =>
    match env.download url with
    | Except.ok fls =>
      ((videoLoop env dest_folder rest
          (fls.foldl (fun a nf => a.write (pathJoin dest_folder nf.1) nf.2) fs)).1,
        OutEvent.info ("Downloading video from " ++ url) ::
          (videoLoop env dest_folder rest
            (fls.foldl (fun a nf => a.write (pathJoin dest_folder nf.1) nf.2) fs)).2)
    | Except.error msg =>
      ((videoLoop env dest_folder rest fs).1,
        OutEvent.info ("Downloading video from " ++ url) ::
          OutEvent.errMsg ("Failed to download " ++ url ++ ": " ++ msg) ::
          (videoLoop env dest_folder rest fs).2)

/-- Embedding of `download_videos(video_urls, dest_folder)`: when the
`yt_dlp` import fails, print a warning and return with no other effect;
otherwise create the destination directory and run the per-URL loop. -/
def download_videos (env : VideoEnv) (video_urls : List String) (dest_folder : String)
    (fs : FS) : FS × List OutEvent :=
  if env.ytdlpAvailable then
    videoLoop env dest_folder video_urls (fs.mkdirs dest_folder)
  else
    (fs,
      [OutEvent.warning
        "yt_dlp is not installed. Install it with pip install yt-dlp to enable video downloads."])

/-- The static video URL list of `main`. -/
def VIDEO_URLS : List String :=
  ["https://www.youtube.com/watch?v=CIc-Eeh7IUY",
   "https://www.youtube.com/watch?v=MFMHu1YEYQo",
   "https://www.msn.com/en-us/video/animals/hidden-camera-captures-a-tiny-mouse-collecting-food/vi-AA1Sv1nx",
   "https://www.youtube.com/watch?v=NfX6bm9x1i4",
   "https://www.youtube.com/watch?v=pGJbyh7oE2U",
   "https://www.youtube.com/watch?v=cP-___7Pva4",
   "https://www.youtube.com/watch?v=yqfF9e9PHj4",
   "https://www.youtube.com/watch?v=n3gfYT5Bw_g",
   "https://www.youtube.com/watch?v=wHWCjBzk6zc",
   "https://www.youtube.com/watch?v=Rs0KxwonI7k"]

/-- The static dataset URL list of `main`. -/
def DATASET_URLS : List String :=
  ["https://zenodo.org/record/3636136/files/RGB_D_Rat_Behavioral_Dataset_AnnotatedSection.zip?download=1",
   "https://zenodo.org/record/3636136/files/RGB_D_Rat_Behavioral_Dataset_NonannotatedSection.zip?download=1",
   "https://zenodo.org/record/15112879/files/Dataset_128_16x9x10K_Color.zip?download=1",
   "https://data.caltech.edu/records/4emt5-b0t10/files/CRIM13_res.zip?download=1",
   "https://data.caltech.edu/records/4emt5-b0t10/files/CRIM13_test1.zip?download=1",
   "https://data.caltech.edu/records/4emt5-b0t10/files/CRIM13_test2.zip?download=1",
   "https://data.caltech.edu/records/4emt5-b0t10/files/CRIM13_train1.zip?download=1",
   "https://data.caltech.edu/records/4emt5-b0t10/files/CRIM13_train2.zip?download=1",
   "https://data.caltech.edu/records/4emt5-b0t10/files/CRIM13_validation.zip?download=1"]

/-- The dataset loop of `main`, in an exception-passing style: each
iteration calls `download_file` under `try ... except requests.HTTPError`,
so an `httpError` is caught and logged while any other exception
propagates out of the loop. -/
def datasetLoopE (server : String → HttpResult) :
    List String → FS → Except PyError (FS × List OutEvent)
  | [], fs => Except.ok (fs, [])
  | url :: rest, fs =>
    match (download_file server url "downloaded_datasets" fs).result with
    | Except.ok _ =>
      match datasetLoopE server rest (download_file server url "downloaded_datasets" fs).fs with
      | Except.ok p =>
        Except.ok (p.1, (download_file server url "downloaded_datasets" fs).out ++ p.2)
      | Except.error e => Except.error e
    | Except.error (PyError.httpError _) =>
      match datasetLoopE server rest (download_file server url "downloaded_datasets" fs).fs with
      | Except.ok p =>
        Except.ok (p.1,
          (download_file server url "downloaded_datasets" fs).out ++
            (OutEvent.errMsg ("Failed to download dataset from " ++ url) :: p.2))
      | Except.error e => Except.error e
    | Except.error e => Except.error e

/-- Embedding of `main`: the video batch, then the dataset loop. An
exception escaping the dataset loop escapes `main`. -/
def mainE (env : VideoEnv) (server : String → HttpResult) (fs : FS) :
    Except PyError (FS × List OutEvent) :=
  match datasetLoopE server DATASET_URLS (download_videos env VIDEO_URLS "downloaded_videos" fs).1 with
  | Except.ok p =>
    Except.ok (p.1, (download_videos env VIDEO_URLS "downloaded_videos" fs).2 ++ p.2)
  | Except.error e => Except.error e

/-- Process exit code of a run of the script: `0` when `main` returns,
nonzero when an uncaught exception terminates the interpreter. -/
def exitCode (env : VideoEnv) (server : String → HttpResult) (fs : FS) : Nat :=
  match mainE env server fs with
  | Except.ok _ => 0
  | Except.error _ => 1

/-- The percentage values among a list of output events, in order. -/
def progressValues (evs : List OutEvent) : List ℚ :=
  evs.filterMap (fun e => match e with
    | OutEvent.progress _ q => some q
    | _ => none)

/-- Number of newline events among a list of output events. -/
def newlineCount (evs : List OutEvent) : Nat :=
  evs.countP (fun e => match e with
    | OutEvent.newline => true
    | _ => false)

/-- Cumulative byte counts after each nonempty chunk, starting from `d`. -/
def cumSizes : Nat → List (List Nat) → List Nat
  | _, [] => []
  | d, c :: rest =>
    if c.isEmpty then cumSizes d rest
    else (d + c.length) :: cumSizes (d + c.length) rest

/-- Creating a directory leaves the file map unchanged. -/
theorem FS.files_mkdirs (fs : FS) (d : String) : (fs.mkdirs d).files = fs.files := by
  unfold FS.mkdirs
  split <;> rfl

/-- Creating a directory leaves every file content unchanged. -/
theorem FS.read?_mkdirs (fs : FS) (d p : String) : (fs.mkdirs d).read? p = fs.read? p := by
  unfold FS.read?
  rw [FS.files_mkdirs]

/-- A path holding a file exists, also after a directory was created. -/
theorem FS.pathExists_mkdirs_of_read? (fs : FS) (d p : String) (c : List Nat)
    (h : fs.read? p = some c) : (fs.mkdirs d).pathExists p = true := by
  unfold FS.read? at h
  obtain ⟨e, hfind, -⟩ := Option.map_eq_some'.mp h
  unfold FS.pathExists
  rw [FS.files_mkdirs]
  have hmem := List.mem_of_find?_eq_some hfind
  have hpred := List.find?_some hfind
  simp only [Bool.or_eq_true, List.any_eq_true]
  exact Or.inl ⟨e, hmem, hpred⟩

/-- Reading back a path just written returns the written content. -/
theorem FS.read?_write_self (fs : FS) (p : String) (c : List Nat) :
    (fs.write p c).read? p = some c := by
  unfold FS.write FS.read?
  simp [List.find?]

/-- The chunks concatenate back to the byte list when the fuel suffices. -/
theorem chunkBytesAux_flatten : ∀ (n : Nat) (bs : List Nat), bs.length ≤ n →
    (chunkBytesAux n bs).flatten = bs
  | _, [], _ => by simp [chunkBytesAux]
  | 0, b :: bs, h => by simp at h
  | n + 1, b :: bs, h => by
    have hlen : ((b :: bs).drop CHUNK_SIZE).length ≤ n := by
      simp only [List.length_drop, List.length_cons, CHUNK_SIZE] at h ⊢
      omega
    simp [chunkBytesAux, chunkBytesAux_flatten n ((b :: bs).drop CHUNK_SIZE) hlen]

/-- Splitting into chunks and concatenating gives back the body. -/
theorem chunkBytes_flatten (bs : List Nat) : (chunkBytes bs).flatten = bs :=
  chunkBytesAux_flatten bs.length bs (Nat.le_refl _)

/-- Every produced chunk is nonempty. -/
theorem chunkBytesAux_mem_not_empty : ∀ (n : Nat) (bs : List Nat) (c : List Nat),
    c ∈ chunkBytesAux n bs → c.isEmpty = false
  | _, [], c, h => by simp [chunkBytesAux] at h
  | 0, b :: bs, c, h => by simp [chunkBytesAux] at h
  | n + 1, b :: bs, c, h => by
    simp only [chunkBytesAux, List.mem_cons] at h
    rcases h with h | h
    · subst h
      have hne : (b :: bs).take CHUNK_SIZE ≠ [] := by
        simp [CHUNK_SIZE]
      simpa [List.isEmpty_iff] using hne
    · exact chunkBytesAux_mem_not_empty n _ c h

/-- The empty-chunk guard of the loop never discards a produced chunk. -/
theorem chunkBytes_filter (bs : List Nat) :
    (chunkBytes bs).filter (fun c => !c.isEmpty) = chunkBytes bs := by
  apply List.filter_eq_self.mpr
  intro c hc
  simp [chunkBytesAux_mem_not_empty bs.length bs c hc]

/-- A nonempty body of at most one chunk size yields exactly one chunk. -/
theorem chunkBytes_small (b : Nat) (tl : List Nat) (h : (b :: tl).length ≤ CHUNK_SIZE) :
    chunkBytes (b :: tl) = [b :: tl] := by
  show chunkBytesAux (tl.length + 1) (b :: tl) = [b :: tl]
  simp [chunkBytesAux, List.take_of_length_le h, List.drop_eq_nil_of_le h]

/-- The final file content is the initial content followed by all the
nonempty chunks, whatever the total size. -/
theorem writeLoop_fst (f : String) (t : Nat) (chunks : List (List Nat)) :
    ∀ (d : Nat) (acc : List Nat),
      (writeLoop f t chunks d acc).1 = acc ++ (chunks.filter (fun c => !c.isEmpty)).flatten := by
  induction chunks with
  | nil => intro d acc; simp [writeLoop]
  | cons chunk rest ih =>
    intro d acc
    by_cases hc : chunk.isEmpty
    · simp [writeLoop, hc, ih]
    · simp [writeLoop, hc, ih]

/-- When the total size is zero the loop prints nothing. -/
theorem writeLoop_snd_zero (f : String) (chunks : List (List Nat)) :
    ∀ (d : Nat) (acc : List Nat), (writeLoop f 0 chunks d acc).2 = [] := by
  induction chunks with
  | nil => intro d acc; simp [writeLoop]
  | cons chunk rest ih =>
    intro d acc
    by_cases hc : chunk.isEmpty <;> simp [writeLoop, hc, ih]

/-- When the total size is nonzero the loop prints, after each nonempty
chunk, the percentage of the cumulative byte count over the total. -/
theorem writeLoop_snd_pos (f : String) (t : Nat) (ht : t ≠ 0) (chunks : List (List Nat)) :
    ∀ (d : Nat) (acc : List Nat),
      (writeLoop f t chunks d acc).2 =
        (cumSizes d chunks).map (fun k : Nat => OutEvent.progress f ((k : ℚ) * 100 / (t : ℚ))) := by
  induction chunks with
  | nil => intro d acc; simp [writeLoop, cumSizes]
  | cons chunk rest ih =>
    intro d acc
    by_cases hc : chunk.isEmpty
    · simp [writeLoop, cumSizes, hc, ih]
    · simp [writeLoop, cumSizes, hc, ht, ih]

/-- With only nonempty chunks, one cumulative count arises per chunk. -/
theorem cumSizes_length : ∀ (chunks : List (List Nat)),
    (∀ c ∈ chunks, c.isEmpty = false) → ∀ (d : Nat),
      (cumSizes d chunks).length = chunks.length
  | [], _, d => by simp [cumSizes]
  | c :: rest, h, d => by
    have hc := h c (by simp)
    simp [cumSizes, hc, cumSizes_length rest (fun x hx => h x (by simp [hx])) _]

/-- Percentage extraction distributes over list concatenation. -/
theorem progressValues_append (a b : List OutEvent) :
    progressValues (a ++ b) = progressValues a ++ progressValues b := by
  simp [progressValues]

/-- Percentage extraction recovers the values of a list of progress
events. -/
theorem progressValues_map {α : Type} (f : String) (g : α → ℚ) (l : List α) :
    progressValues (l.map (fun k => OutEvent.progress f (g k))) = l.map g := by
  induction l with
  | nil => rfl
  | cons x xs ih =>
    show g x :: progressValues (List.map (fun k => OutEvent.progress f (g k)) xs)
      = g x :: List.map g xs
    rw [ih]

/-- Progress events contain no newline. -/
theorem newlineCount_progress_map {α : Type} (f : String) (g : α → ℚ) (l : List α) :
    newlineCount (l.map (fun k => OutEvent.progress f (g k))) = 0 := by
  induction l with
  | nil => simp [newlineCount]
  | cons x xs ih => simp [newlineCount, ih]

/-- Branch characterisation: a pre-existing destination file selects the
skip branch. -/
theorem download_file_of_exists (server : String → HttpResult) (url d : String) (fs : FS)
    (h : (fs.mkdirs d).pathExists (pathJoin d (deriveFilename url)) = true) :
    download_file server url d fs = skipResult url d fs := by
  simp [download_file, h]

/-- Branch characterisation: no pre-existing file and a connection-level
failure from `requests.get`. -/
theorem download_file_of_connFail (server : String → HttpResult) (url d : String) (fs : FS)
    (msg : String)
    (hne : (fs.mkdirs d).pathExists (pathJoin d (deriveFilename url)) = false)
    (hsv : server url = HttpResult.connectionFailure msg) :
    download_file server url d fs = connFailResult url d fs msg := by
  simp [download_file, hne, hsv]

/-- Branch characterisation: no pre-existing file and a 4xx/5xx status. -/
theorem download_file_of_httpError (server : String → HttpResult) (url d : String) (fs : FS)
    (resp : Response)
    (hne : (fs.mkdirs d).pathExists (pathJoin d (deriveFilename url)) = false)
    (hsv : server url = HttpResult.success resp)
    (h4 : 400 ≤ resp.status) (h6 : resp.status < 600) :
    download_file server url d fs = httpErrorResult url d fs resp.status := by
  simp [download_file, hne, hsv, h4, h6]

/-- Branch characterisation: no pre-existing file and a non-raising
status select the transfer branch. -/
theorem download_file_of_transfer (server : String → HttpResult) (url d : String) (fs : FS)
    (resp : Response)
    (hne : (fs.mkdirs d).pathExists (pathJoin d (deriveFilename url)) = false)
    (hsv : server url = HttpResult.success resp)
    (hs : ¬(400 ≤ resp.status ∧ resp.status < 600)) :
    download_file server url d fs = transferResult url d fs resp := by
  simp [download_file, hne, hsv, hs]

/-- Against a server that answers every request with a response, a
`download_file` call either returns the destination path or raises a
`requests.HTTPError`; no other exception can arise. -/
theorem download_file_result_of_success (server : String → HttpResult) (url d : String)
    (fs : FS) (resp : Response) (hsv : server url = HttpResult.success resp) :
    (download_file server url d fs).result = Except.ok (pathJoin d (deriveFilename url)) ∨
    (download_file server url d fs).result = Except.error (PyError.httpError resp.status) := by
  by_cases hex : (fs.mkdirs d).pathExists (pathJoin d (deriveFilename url)) = true
  · left
    rw [download_file_of_exists server url d fs hex]
    rfl
  · have hne : (fs.mkdirs d).pathExists (pathJoin d (deriveFilename url)) = false :=
      Bool.eq_false_iff.mpr hex
    by_cases hs : 400 ≤ resp.status ∧ resp.status < 600
    · right
      rw [download_file_of_httpError server url d fs resp hne hsv hs.1 hs.2]
      rfl
    · left
      rw [download_file_of_transfer server url d fs resp hne hsv hs]
      rfl

/-- Against a server that answers every request with a response, the
dataset loop of `main` catches every exception of every iteration and
returns normally. -/
theorem datasetLoopE_ok (server : String → HttpResult)
    (h : ∀ url, ∃ resp, server url = HttpResult.success resp) :
    ∀ (urls : List String) (fs : FS), ∃ p, datasetLoopE server urls fs = Except.ok p := by
  intro urls
  induction urls with
  | nil => intro fs; exact ⟨_, rfl⟩
  | cons url rest ih =>
    intro fs
    obtain ⟨resp, hresp⟩ := h url
    obtain ⟨p, hp⟩ := ih (download_file server url "downloaded_datasets" fs).fs
    rcases download_file_result_of_success server url "downloaded_datasets" fs resp hresp with
      hok | herr
    · refine ⟨(p.1, (download_file server url "downloaded_datasets" fs).out ++ p.2), ?_⟩
      simp only [datasetLoopE]
      rw [hok, hp]
    · refine ⟨(p.1, (download_file server url "downloaded_datasets" fs).out ++
        (OutEvent.errMsg ("Failed to download dataset from " ++ url) :: p.2)), ?_⟩
      simp only [datasetLoopE]
      rw [herr, hp]

/-- C1: a pre-existing destination file makes `download_file` a no-op that
returns the existing path: no network request is issued, the file map is
unchanged, and in particular the existing content is never overwritten by
this or any later run. -/
theorem C1_skip_existing (server : String → HttpResult) (url dest_folder : String)
    (fs : FS) (c : List Nat)
    (h : fs.read? (pathJoin dest_folder (deriveFilename url)) = some c) :
    (download_file server url dest_folder fs).reqs = [] ∧
    (download_file server url dest_folder fs).fs.files = fs.files ∧
    (download_file server url dest_folder fs).result =
      Except.ok (pathJoin dest_folder (deriveFilename url)) ∧
    (download_file server url dest_folder fs).fs.read?
      (pathJoin dest_folder (deriveFilename url)) = some c := by
  have hex := FS.pathExists_mkdirs_of_read? fs dest_folder
    (pathJoin dest_folder (deriveFilename url)) c h
  rw [download_file_of_exists server url dest_folder fs hex]
  refine ⟨rfl, FS.files_mkdirs fs dest_folder, rfl, ?_⟩
  show (fs.mkdirs dest_folder).read? (pathJoin dest_folder (deriveFilename url)) = some c
  rw [FS.read?_mkdirs, h]

/-- C1 witness: a concrete filesystem already holding `dl/f.zip`. -/
theorem C1_skip_existing_witness :
    (FS.mk [] [("dl/f.zip", [1, 2, 3])]).read?
      (pathJoin "dl" (deriveFilename "http://h/f.zip")) = some [1, 2, 3] ∧
    ((download_file (fun _ => HttpResult.connectionFailure "net") "http://h/f.zip" "dl"
        (FS.mk [] [("dl/f.zip", [1, 2, 3])])).reqs = [] ∧
      (download_file (fun _ => HttpResult.connectionFailure "net") "http://h/f.zip" "dl"
        (FS.mk [] [("dl/f.zip", [1, 2, 3])])).fs.files =
          (FS.mk [] [("dl/f.zip", [1, 2, 3])]).files ∧
      (download_file (fun _ => HttpResult.connectionFailure "net") "http://h/f.zip" "dl"
        (FS.mk [] [("dl/f.zip", [1, 2, 3])])).result =
          Except.ok (pathJoin "dl" (deriveFilename "http://h/f.zip")) ∧
      (download_file (fun _ => HttpResult.connectionFailure "net") "http://h/f.zip" "dl"
        (FS.mk [] [("dl/f.zip", [1, 2, 3])])).fs.read?
          (pathJoin "dl" (deriveFilename "http://h/f.zip")) = some [1, 2, 3]) :=
  ⟨by decide, C1_skip_existing _ _ _ _ _ (by decide)⟩

/-- C2: with no pre-existing file and a 4xx/5xx response, `download_file`
raises a `requests.HTTPError` and the file map is unchanged: no file was
created, the error being raised before the destination file is opened. -/
theorem C2_http_error_no_file (server : String → HttpResult) (url d : String) (fs : FS)
    (resp : Response)
    (hne : (fs.mkdirs d).pathExists (pathJoin d (deriveFilename url)) = false)
    (hsv : server url = HttpResult.success resp)
    (h4 : 400 ≤ resp.status) (h6 : resp.status < 600) :
    (download_file server url d fs).result = Except.error (PyError.httpError resp.status) ∧
    (download_file server url d fs).fs.files = fs.files := by
  rw [download_file_of_httpError server url d fs resp hne hsv h4 h6]
  exact ⟨rfl, FS.files_mkdirs fs d⟩

/-- C2 witness: a concrete 404 on an empty filesystem. -/
theorem C2_http_error_no_file_witness :
    ((FS.empty.mkdirs "dl").pathExists (pathJoin "dl" (deriveFilename "http://h/f.zip"))
        = false ∧
      (fun _ : String => HttpResult.success (Response.mk 404 none [])) "http://h/f.zip" =
        HttpResult.success (Response.mk 404 none []) ∧
      400 ≤ (Response.mk 404 none (List.nil)).status ∧
      (Response.mk 404 none (List.nil)).status < 600) ∧
    ((download_file (fun _ => HttpResult.success (Response.mk 404 none [])) "http://h/f.zip"
        "dl" FS.empty).result =
          Except.error (PyError.httpError (Response.mk 404 none (List.nil)).status) ∧
      (download_file (fun _ => HttpResult.success (Response.mk 404 none [])) "http://h/f.zip"
        "dl" FS.empty).fs.files = FS.empty.files) :=
  ⟨⟨by decide, rfl, by decide, by decide⟩,
    C2_http_error_no_file _ _ _ _ _ (by decide) rfl (by decide) (by decide)⟩

/-- C5: with no pre-existing file and a 2xx response, `download_file`
writes the response body to the destination file byte for byte — whatever
the Content-Length header — and returns the destination path; the file
content is exactly the body, written from byte zero. -/
theorem C5_writes_body (server : String → HttpResult) (url d : String) (fs : FS)
    (resp : Response)
    (hne : (fs.mkdirs d).pathExists (pathJoin d (deriveFilename url)) = false)
    (hsv : server url = HttpResult.success resp)
    (h2a : 200 ≤ resp.status) (h2b : resp.status < 300) :
    (download_file server url d fs).result = Except.ok (pathJoin d (deriveFilename url)) ∧
    (download_file server url d fs).fs.read? (pathJoin d (deriveFilename url)) =
      some resp.body := by
  have hs : ¬(400 ≤ resp.status ∧ resp.status < 600) := by omega
  rw [download_file_of_transfer server url d fs resp hne hsv hs]
  refine ⟨rfl, ?_⟩
  show ((fs.mkdirs d).write (pathJoin d (deriveFilename url))
      (writeLoop (deriveFilename url) (resp.contentLength.getD 0)
        (chunkBytes resp.body) 0 []).1).read? (pathJoin d (deriveFilename url)) =
    some resp.body
  rw [FS.read?_write_self]
  rw [writeLoop_fst, chunkBytes_filter, chunkBytes_flatten]
  rfl

/-- C5 witness: a concrete body with no Content-Length header. -/
theorem C5_writes_body_witness :
    ((FS.empty.mkdirs "dl").pathExists (pathJoin "dl" (deriveFilename "http://h/f.zip"))
        = false ∧
      (fun _ : String => HttpResult.success (Response.mk 200 none [7, 8])) "http://h/f.zip" =
        HttpResult.success (Response.mk 200 none [7, 8]) ∧
      200 ≤ (Response.mk 200 none [7, 8]).status ∧
      (Response.mk 200 none [7, 8]).status < 300) ∧
    ((download_file (fun _ => HttpResult.success (Response.mk 200 none [7, 8]))
        "http://h/f.zip" "dl" FS.empty).result =
          Except.ok (pathJoin "dl" (deriveFilename "http://h/f.zip")) ∧
      (download_file (fun _ => HttpResult.success (Response.mk 200 none [7, 8]))
        "http://h/f.zip" "dl" FS.empty).fs.read?
          (pathJoin "dl" (deriveFilename "http://h/f.zip")) =
            some (Response.mk 200 none [7, 8]).body) :=
  ⟨⟨by decide, rfl, by decide, by decide⟩,
    C5_writes_body _ _ _ _ _ (by decide) rfl (by decide) (by decide)⟩

/-- C7: when `yt_dlp` is unavailable, `download_videos` on a non-empty URL
list returns normally with the filesystem untouched and only the warning
emitted — no download is attempted and no video file is created. -/
theorem C7_capability_short_circuit (env : VideoEnv) (urls : List String) (d : String)
    (fs : FS) (hcap : env.ytdlpAvailable = false) (hurls : urls ≠ []) :
    download_videos env urls d fs =
      (fs, [OutEvent.warning
        "yt_dlp is not installed. Install it with pip install yt-dlp to enable video downloads."]) := by
  simp [download_videos, hcap]

/-- C7 witness: a singleton URL list with the capability absent. -/
theorem C7_capability_short_circuit_witness :
    ((VideoEnv.mk false (fun _ => Except.error "no yt_dlp")).ytdlpAvailable = false ∧
      (["https://example.com/v"] : List String) ≠ []) ∧
    download_videos (VideoEnv.mk false (fun _ => Except.error "no yt_dlp"))
        ["https://example.com/v"] "downloaded_videos" FS.empty =
      (FS.empty, [OutEvent.warning
        "yt_dlp is not installed. Install it with pip install yt-dlp to enable video downloads."]) :=
  ⟨⟨rfl, by decide⟩,
    C7_capability_short_circuit _ _ _ _ rfl (by decide)⟩

/-- C10: when `yt_dlp` is unavailable, `download_videos` leaves the whole
filesystem unchanged; in particular the destination directory is not
created, since `os.makedirs` runs only after the import succeeds. -/
theorem C10_no_directory_created (env : VideoEnv) (urls : List String) (d : String)
    (fs : FS) (hcap : env.ytdlpAvailable = false) :
    (download_videos env urls d fs).1.dirs = fs.dirs ∧
    (download_videos env urls d fs).1.files = fs.files := by
  simp [download_videos, hcap]

/-- C10 witness: concrete run with the capability absent. -/
theorem C10_no_directory_created_witness :
    (VideoEnv.mk false (fun _ => Except.error "no yt_dlp")).ytdlpAvailable = false ∧
    ((download_videos (VideoEnv.mk false (fun _ => Except.error "no yt_dlp"))
        ["https://example.com/v"] "downloaded_videos" FS.empty).1.dirs = FS.empty.dirs ∧
      (download_videos (VideoEnv.mk false (fun _ => Except.error "no yt_dlp"))
        ["https://example.com/v"] "downloaded_videos" FS.empty).1.files = FS.empty.files) :=
  ⟨rfl, C10_no_directory_created _ _ _ _ rfl⟩

/-- An informational line contributes no percentage. -/
theorem progressValues_cons_info (m : String) (l : List OutEvent) :
    progressValues (OutEvent.info m :: l) = progressValues l := rfl

/-- A newline contributes no percentage. -/
theorem progressValues_cons_newline (l : List OutEvent) :
    progressValues (OutEvent.newline :: l) = progressValues l := rfl

/-- No events, no percentages. -/
theorem progressValues_nil : progressValues [] = [] := rfl

/-- C4: when the response carries a nonzero Content-Length `n`, the
percentages printed by `download_file` are exactly, chunk by chunk, the
cumulative downloaded byte count times 100 over `n`; when no length is
reported, no percentage is printed; and for a Content-Length of 1000
delivered as a single chunk the value 100 is printed exactly once. -/
theorem C4_progress_percentages :
    (∀ (server : String → HttpResult) (url d : String) (fs : FS) (resp : Response) (n : Nat),
      (fs.mkdirs d).pathExists (pathJoin d (deriveFilename url)) = false →
      server url = HttpResult.success resp →
      ¬(400 ≤ resp.status ∧ resp.status < 600) →
      resp.contentLength = some n → n ≠ 0 →
      progressValues (download_file server url d fs).out =
        (cumSizes 0 (chunkBytes resp.body)).map (fun k : Nat => (k : ℚ) * 100 / (n : ℚ))) ∧
    (∀ (server : String → HttpResult) (url d : String) (fs : FS) (resp : Response),
      (fs.mkdirs d).pathExists (pathJoin d (deriveFilename url)) = false →
      server url = HttpResult.success resp →
      ¬(400 ≤ resp.status ∧ resp.status < 600) →
      resp.contentLength = none →
      progressValues (download_file server url d fs).out = []) ∧
    progressValues (download_file
        (fun _ => HttpResult.success (Response.mk 200 (some 1000) (List.replicate 1000 0)))
        "http://h/f.zip" "dl" FS.empty).out = [(100 : ℚ)] := by
  refine ⟨?_, ?_, ?_⟩
  · intro server url d fs resp n hne hsv hs hcl hn
    rw [download_file_of_transfer server url d fs resp hne hsv hs]
    simp only [transferResult, hcl, Option.getD_some]
    rw [writeLoop_snd_pos _ _ hn, if_neg hn, progressValues_append,
      progressValues_append, progressValues_cons_info, progressValues_map,
      progressValues_cons_newline, progressValues_nil, progressValues_cons_info,
      progressValues_nil, List.append_nil, List.append_nil]
  · intro server url d fs resp hne hsv hs hcl
    rw [download_file_of_transfer server url d fs resp hne hsv hs]
    simp only [transferResult, hcl, Option.getD_none]
    rw [writeLoop_snd_zero]
    simp [progressValues]
  · have hne : (FS.empty.mkdirs "dl").pathExists
        (pathJoin "dl" (deriveFilename "http://h/f.zip")) = false := by decide
    rw [download_file_of_transfer _ _ _ _
      (Response.mk 200 (some 1000) (List.replicate 1000 0)) hne rfl (by decide)]
    have hchunks : chunkBytes (List.replicate 1000 (0 : Nat)) = [List.replicate 1000 0] := by
      have hrep : List.replicate 1000 (0 : Nat) = 0 :: List.replicate 999 0 := rfl
      rw [hrep]
      refine chunkBytes_small 0 (List.replicate 999 0) ?_
      rw [List.length_cons, List.length_replicate]
      norm_num [CHUNK_SIZE]
    have hie : (List.replicate 1000 (0 : Nat)).isEmpty = false := rfl
    have hcs : cumSizes 0 [List.replicate 1000 (0 : Nat)] = [1000] := by
      simp only [cumSizes, hie, Bool.false_eq_true, if_false, List.length_replicate,
        Nat.zero_add]
    simp only [transferResult, Option.getD_some]
    rw [writeLoop_snd_pos _ _ (by decide), hchunks, hcs, if_neg (by decide : ¬(1000 = 0)),
      progressValues_append, progressValues_append, progressValues_cons_info,
      progressValues_map, progressValues_cons_newline, progressValues_nil,
      progressValues_cons_info, progressValues_nil, List.append_nil, List.append_nil]
    norm_num

/-- C4 witness: Content-Length 2 with a two-byte body. -/
theorem C4_progress_percentages_witness :
    ((FS.empty.mkdirs "dl").pathExists (pathJoin "dl" (deriveFilename "http://h/f.zip"))
        = false ∧
      (fun _ : String => HttpResult.success (Response.mk 200 (some 2) [9, 9])) "http://h/f.zip"
        = HttpResult.success (Response.mk 200 (some 2) [9, 9]) ∧
      ¬(400 ≤ (Response.mk 200 (some 2) [9, 9]).status ∧
          (Response.mk 200 (some 2) [9, 9]).status < 600) ∧
      (Response.mk 200 (some 2) [9, 9]).contentLength = some 2 ∧ (2 : Nat) ≠ 0) ∧
    progressValues (download_file (fun _ => HttpResult.success (Response.mk 200 (some 2) [9, 9]))
        "http://h/f.zip" "dl" FS.empty).out =
      (cumSizes 0 (chunkBytes (Response.mk 200 (some 2) [9, 9]).body)).map
        (fun k : Nat => (k : ℚ) * 100 / ((2 : Nat) : ℚ)) :=
  ⟨⟨by decide, rfl, by decide, rfl, by decide⟩,
    C4_progress_percentages.1 _ _ _ _ _ 2 (by decide) rfl (by decide) rfl (by decide)⟩

/-- C9: `total_size = int(resp.headers.get('Content-Length', 0))` makes an
absent header and a header parsing to 0 indistinguishable: in both cases no
percentage and no newline are printed while the body is still written; and
when the parsed value is nonzero, exactly one percentage is printed per
chunk of the body. -/
theorem C9_zero_length_unreported (server : String → HttpResult) (url d : String) (fs : FS)
    (resp : Response)
    (hne : (fs.mkdirs d).pathExists (pathJoin d (deriveFilename url)) = false)
    (hsv : server url = HttpResult.success resp)
    (hs : ¬(400 ≤ resp.status ∧ resp.status < 600)) :
    (resp.contentLength.getD 0 = 0 →
      progressValues (download_file server url d fs).out = [] ∧
      newlineCount (download_file server url d fs).out = 0 ∧
      (download_file server url d fs).fs.read? (pathJoin d (deriveFilename url)) =
        some resp.body) ∧
    (∀ n : Nat, resp.contentLength = some n → n ≠ 0 →
      (progressValues (download_file server url d fs).out).length =
        (chunkBytes resp.body).length) := by
  constructor
  · intro h0
    rw [download_file_of_transfer server url d fs resp hne hsv hs]
    refine ⟨?_, ?_, ?_⟩
    · simp only [transferResult, h0]
      rw [writeLoop_snd_zero]
      simp [progressValues]
    · simp only [transferResult, h0]
      rw [writeLoop_snd_zero]
      simp [newlineCount]
    · show ((fs.mkdirs d).write (pathJoin d (deriveFilename url))
          (writeLoop (deriveFilename url) (resp.contentLength.getD 0)
            (chunkBytes resp.body) 0 []).1).read? (pathJoin d (deriveFilename url)) =
        some resp.body
      rw [FS.read?_write_self, writeLoop_fst, chunkBytes_filter, chunkBytes_flatten]
      rfl
  · intro n hcl hn
    rw [download_file_of_transfer server url d fs resp hne hsv hs]
    simp only [transferResult, hcl, Option.getD_some]
    rw [writeLoop_snd_pos _ _ hn, if_neg hn, progressValues_append,
      progressValues_append, progressValues_cons_info, progressValues_map,
      progressValues_cons_newline, progressValues_nil, progressValues_cons_info,
      progressValues_nil, List.append_nil, List.append_nil, List.length_map]
    exact cumSizes_length (chunkBytes resp.body)
      (fun c hc => chunkBytesAux_mem_not_empty _ _ c hc) 0

/-- C9 witness: a 200 response with no Content-Length and body `[3]`. -/
theorem C9_zero_length_unreported_witness :
    ((FS.empty.mkdirs "dl").pathExists (pathJoin "dl" (deriveFilename "http://h/f.zip"))
        = false ∧
      (fun _ : String => HttpResult.success (Response.mk 200 none [3])) "http://h/f.zip" =
        HttpResult.success (Response.mk 200 none [3]) ∧
      ¬(400 ≤ (Response.mk 200 none [3]).status ∧ (Response.mk 200 none [3]).status < 600)) ∧
    (((Response.mk 200 none [3]).contentLength.getD 0 = 0 →
      progressValues (download_file (fun _ => HttpResult.success (Response.mk 200 none [3]))
        "http://h/f.zip" "dl" FS.empty).out = [] ∧
      newlineCount (download_file (fun _ => HttpResult.success (Response.mk 200 none [3]))
        "http://h/f.zip" "dl" FS.empty).out = 0 ∧
      (download_file (fun _ => HttpResult.success (Response.mk 200 none [3]))
        "http://h/f.zip" "dl" FS.empty).fs.read?
          (pathJoin "dl" (deriveFilename "http://h/f.zip")) =
        some (Response.mk 200 none [3]).body) ∧
    (∀ n : Nat, (Response.mk 200 none [3]).contentLength = some n → n ≠ 0 →
      (progressValues (download_file (fun _ => HttpResult.success (Response.mk 200 none [3]))
        "http://h/f.zip" "dl" FS.empty).out).length =
        (chunkBytes (Response.mk 200 none [3]).body).length)) :=
  ⟨⟨by decide, rfl, by decide⟩,
    C9_zero_length_unreported _ _ _ _ _ (by decide) rfl (by decide)⟩

/-- C6 counterexample: the claim's filename — the percent-decoded last
path segment with only the query string excluded — is `name;v=1` for
`https://host/path/name;v=1`, but the code derives `name`, because
`urlparse` also splits the `;params` suffix off the last segment for the
schemes in `uses_params`, `https` among them. -/
theorem C6_filename_counterexample :
    specLastSegmentFilename "https://host/path/name;v=1" = "name;v=1" ∧
    deriveFilename "https://host/path/name;v=1" = "name" ∧
    deriveFilename "https://host/path/name;v=1" ≠
      specLastSegmentFilename "https://host/path/name;v=1" :=
  ⟨by decide, by decide, by decide⟩

/-- C6 as amended: the local filename is the percent-decoded (UTF-8, with
replacement) last segment of the path component `urlparse` computes —
query string and fragment excluded and, the scheme `https` being in
`uses_params`, a `;params` suffix of the last segment also stripped — with
the literal fallback `downloaded_file` when that basename is empty; the
example URL still maps to `File Name.zip`, and every path returned by
`download_file` is the destination directory joined with this filename. -/
theorem C6_filename_derivation :
    deriveFilename "https://host/path/File%20Name.zip?download=1" = "File Name.zip" ∧
    (∀ url : String, unquoteStr (basenameOf (urlparsePath url)) = "" →
      deriveFilename url = "downloaded_file") ∧
    (∀ url : String, unquoteStr (basenameOf (urlparsePath url)) ≠ "" →
      deriveFilename url = unquoteStr (basenameOf (urlparsePath url))) ∧
    (∀ (server : String → HttpResult) (url d : String) (fs : FS) (p : String),
      (download_file server url d fs).result = Except.ok p →
      p = pathJoin d (deriveFilename url)) := by
  refine ⟨by decide, ?_, ?_, ?_⟩
  · intro url h
    simp [deriveFilename, h]
  · intro url h
    simp [deriveFilename, h]
  · intro server url d fs p hp
    by_cases hex : (fs.mkdirs d).pathExists (pathJoin d (deriveFilename url)) = true
    · rw [download_file_of_exists server url d fs hex] at hp
      simp only [skipResult] at hp
      exact (Except.ok.inj hp).symm
    · have hne : (fs.mkdirs d).pathExists (pathJoin d (deriveFilename url)) = false :=
        Bool.eq_false_iff.mpr hex
      cases hsv : server url with
      | connectionFailure msg =>
        rw [download_file_of_connFail server url d fs msg hne hsv] at hp
        simp only [connFailResult] at hp
        exact Except.noConfusion hp
      | success resp =>
        by_cases hs : 400 ≤ resp.status ∧ resp.status < 600
        · rw [download_file_of_httpError server url d fs resp hne hsv hs.1 hs.2] at hp
          simp only [httpErrorResult] at hp
          exact Except.noConfusion hp
        · rw [download_file_of_transfer server url d fs resp hne hsv hs] at hp
          simp only [transferResult] at hp
          exact (Except.ok.inj hp).symm

/-- C6 witness: a run of `download_file` whose returned path is the join
of the destination directory and the derived filename. -/
theorem C6_filename_derivation_witness :
    (download_file (fun _ => HttpResult.connectionFailure "net") "http://h/f.zip" "dl"
        (FS.mk [] [("dl/f.zip", [1])])).result = Except.ok "dl/f.zip" ∧
    "dl/f.zip" = pathJoin "dl" (deriveFilename "http://h/f.zip") :=
  ⟨by rfl, C6_filename_derivation.2.2.2 (fun _ => HttpResult.connectionFailure "net")
    "http://h/f.zip" "dl" (FS.mk [] [("dl/f.zip", [1])]) "dl/f.zip" (by rfl)⟩

/-- C8: the video batch is processed sequentially and each URL
independently: the loop over a concatenation is the loop over the first
part followed by the loop over the second on the resulting filesystem (so
an exception logged for one URL never prevents the later ones), and in the
two-URL scenario where the first raises and the second succeeds, the
second file is still produced, with the error logged between the two
informational lines; the function is total, returning normally whatever
the per-URL outcomes. -/
theorem C8_batch_isolation :
    (∀ (env : VideoEnv) (d : String) (us vs : List String) (fs : FS),
      videoLoop env d (us ++ vs) fs =
        ((videoLoop env d vs (videoLoop env d us fs).1).1,
          (videoLoop env d us fs).2 ++ (videoLoop env d vs (videoLoop env d us fs).1).2)) ∧
    (∀ (env : VideoEnv) (u1 u2 m nm : String) (c : List Nat) (d : String) (fs : FS),
      env.ytdlpAvailable = true →
      env.download u1 = Except.error m →
      env.download u2 = Except.ok [(nm, c)] →
      (download_videos env [u1, u2] d fs).1.read? (pathJoin d nm) = some c ∧
      (download_videos env [u1, u2] d fs).2 =
        [OutEvent.info ("Downloading video from " ++ u1),
         OutEvent.errMsg ("Failed to download " ++ u1 ++ ": " ++ m),
         OutEvent.info ("Downloading video from " ++ u2)]) := by
  constructor
  · intro env d us vs
    induction us with
    | nil => intro fs; simp [videoLoop]
    | cons u us ih =>
      intro fs
      cases hd : env.download u with
      | ok fls => simp [videoLoop, hd, ih]
      | error msg => simp [videoLoop, hd, ih]
  · intro env u1 u2 m nm c d fs hcap h1 h2
    have hv : download_videos env [u1, u2] d fs = videoLoop env d [u1, u2] (fs.mkdirs d) := by
      simp [download_videos, hcap]
    rw [hv]
    simp [videoLoop, h1, h2, FS.read?_write_self]

/-- C8 witness: first URL raises, second succeeds and its file appears. -/
theorem C8_batch_isolation_witness :
    ((VideoEnv.mk true (fun u => if u = "a" then Except.error "boom"
        else Except.ok [("v.mp4", [5])])).ytdlpAvailable = true ∧
      (VideoEnv.mk true (fun u => if u = "a" then Except.error "boom"
        else Except.ok [("v.mp4", [5])])).download "a" = Except.error "boom" ∧
      (VideoEnv.mk true (fun u => if u = "a" then Except.error "boom"
        else Except.ok [("v.mp4", [5])])).download "b" = Except.ok [("v.mp4", [5])]) ∧
    ((download_videos (VideoEnv.mk true (fun u => if u = "a" then Except.error "boom"
        else Except.ok [("v.mp4", [5])])) ["a", "b"] "dv" FS.empty).1.read?
          (pathJoin "dv" "v.mp4") = some [5] ∧
      (download_videos (VideoEnv.mk true (fun u => if u = "a" then Except.error "boom"
        else Except.ok [("v.mp4", [5])])) ["a", "b"] "dv" FS.empty).2 =
        [OutEvent.info ("Downloading video from " ++ "a"),
         OutEvent.errMsg ("Failed to download " ++ "a" ++ ": " ++ "boom"),
         OutEvent.info ("Downloading video from " ++ "b")]) :=
  ⟨⟨rfl, by rfl, by rfl⟩,
    C8_batch_isolation.2 (VideoEnv.mk true (fun u => if u = "a" then Except.error "boom"
        else Except.ok [("v.mp4", [5])]))
      "a" "b" "boom" "v.mp4" [5] "dv" FS.empty rfl (by rfl) (by rfl)⟩

/-- C3 counterexample: a connection-level failure (a reset, a timeout)
during the first dataset download is a `requests.RequestException` but not
a `requests.HTTPError`, so the `except requests.HTTPError` handler of
`main` does not catch it and the process terminates abnormally instead of
exiting 0 — the claim that every possible failure of an individual
download is non-fatal is false on the code. -/
theorem C3_counterexample :
    exitCode (VideoEnv.mk false (fun _ => Except.error "no yt_dlp"))
      (fun _ => HttpResult.connectionFailure "connection reset by peer") FS.empty = 1 := by
  rfl

/-- C3 as amended: every failure that reaches the per-item handlers is
non-fatal — any per-URL video exception is caught, and as long as every
dataset request yields an HTTP response (of any status, 4xx/5xx included,
so every `requests.HTTPError` is caught and logged), `main` runs every
iteration to completion and the process exits 0. Only a connection-level
error escapes. -/
theorem C3_http_failures_nonfatal (env : VideoEnv) (server : String → HttpResult)
    (fs : FS) (h : ∀ url, ∃ resp, server url = HttpResult.success resp) :
    exitCode env server fs = 0 := by
  obtain ⟨p, hp⟩ := datasetLoopE_ok server h DATASET_URLS
    (download_videos env VIDEO_URLS "downloaded_videos" fs).1
  simp [exitCode, mainE, hp]

/-- C3 amended-claim witness: every video extraction fails and every
dataset request returns 404, yet the exit code is 0. -/
theorem C3_http_failures_nonfatal_witness :
    (∀ url : String, ∃ resp, (fun _ : String => HttpResult.success (Response.mk 404 none []))
        url = HttpResult.success resp) ∧
    exitCode (VideoEnv.mk true (fun _ => Except.error "extraction failed"))
      (fun _ => HttpResult.success (Response.mk 404 none [])) FS.empty = 0 :=
  ⟨fun _ => ⟨_, rfl⟩,
    C3_http_failures_nonfatal _ _ _ (fun _ => ⟨_, rfl⟩)⟩

end AutoDownload
